import Mathlib

/-!
Shallow embedding of `src/lib/export.py`: the parameterized-expression
export model (ParameterSpec / CompiledExpression / FunctionalUnit /
Impact / Model) of the repository, together with proofs of the spec
claims about it.

Conventions of the embedding:
* Python runtime values that flow through dynamically-typed fields are
  modelled by `PyVal`; Python numbers (int and float alike) are modelled
  by `ℚ` so that equalities are exact and decidable.
* Python `dict`s are modelled as association lists in insertion order;
  lookup (`dictGet`) is last-occurrence-wins, which coincides with the
  behaviour of a Python dict built from the same key/value sequence.
* Raised Python exceptions are modelled by `Except PyError`; comprehensions
  that can raise are modelled by `mapExcept`, which stops at the first
  raising element, as a Python generator does.
* The external symbolic engine (sympy / lca_algebraic: expression trees,
  `free_symbols`, `_lambdify`, `str`, `parse_expr`) is not code of this
  repository; those capabilities are modelled from the spec, as marked on
  each such definition.
-/

/-- Python exception values raised by the code under `src/lib/export.py`.
`keyError` models `KeyError` (a `LookupError` subclass) raised by dict
indexing, `exception` a bare `Exception(msg)`, `typeError` a `TypeError`.
`configurationError` exists only so that spec claims mentioning a
`ConfigurationError` can be stated; no code in the repository defines or
raises such an exception. -/
inductive PyError where
  | exception (msg : String)
  | keyError (key : String)
  | typeError (msg : String)
  | configurationError (msg : String)
deriving DecidableEq

/-- True exactly for the errors that are instances of Python's
`LookupError` (`KeyError` is; a bare `Exception` is not). -/
def PyError.isLookupError : PyError → Bool
  | .keyError _ => true
  | _ => false

/-- True exactly for the `configurationError` constructor. -/
def PyError.isConfigurationError : PyError → Bool
  | .configurationError _ => true
  | _ => false

/-- The `ParamType(str, Enum)` of `export.py`: `BOOLEAN = "bool"`,
`ENUM = "enum"`, `FLOAT = "float"`. -/
inductive ParamType where
  | BOOLEAN
  | ENUM
  | FLOAT
deriving DecidableEq

/-- The `str` value of a `ParamType` member (the enum's `_value_`). -/
def ParamType.value : ParamType → String
  | .BOOLEAN => "bool"
  | .ENUM => "enum"
  | .FLOAT => "float"

/-- The member name of a `ParamType` member (the enum's `_name_`). -/
def ParamType.memberName : ParamType → String
  | .BOOLEAN => "BOOLEAN"
  | .ENUM => "ENUM"
  | .FLOAT => "FLOAT"

/-- Python runtime values flowing through the dynamically-typed fields of
the export model. `none` is Python `None`; `tuple1` is a one-element
tuple `(v,)`; `enumMember` is a `ParamType` member (a `str` subclass);
numbers (int/float) are modelled by `ℚ`. -/
inductive PyVal where
  | none
  | str (s : String)
  | num (q : ℚ)
  | tuple1 (v : PyVal)
  | list (items : List PyVal)
  | dict (entries : List (String × PyVal))
deriving Inhabited

/-- A `ParamType` member as a `PyVal` is kept separate from plain strings
because Python `==` distinguishes how it compares (it equals both the
member and its string value) and `serialize_model` dumps it through its
`__dict__`. -/
inductive PyTypeField where
  | member (t : ParamType)
  | other (v : PyVal)
deriving Inhabited

/-- Python dict lookup on an insertion-ordered association list: the last
binding of the key wins, matching a dict built from the same sequence. -/
def dictGet {α : Type} : List (String × α) → String → Option α
  | [], _ => Option.none
  | kv :: rest, key =>
    match dictGet rest key with
    | some v => some v
    | Option.none => if kv.1 = key then some kv.2 else Option.none

/-- Python `key in d` on the association-list model of a dict. -/
def dictHas {α : Type} (l : List (String × α)) (key : String) : Bool :=
  (dictGet l key).isSome

/-- Python `base.update(upd)`: existing keys keep their position and take
the updated value; new keys are appended in `upd` order. -/
def updateAssoc {α : Type} (base upd : List (String × α)) : List (String × α) :=
  base.map (fun kv =>
    match dictGet upd kv.1 with
    | some v => (kv.1, v)
    | Option.none => kv)
  ++ upd.filter (fun kv => ¬ dictHas base kv.1)

/-- A Python comprehension whose body may raise: elements are processed
left to right and the first raised exception propagates, as with a
generator being consumed. -/
def mapExcept {α β : Type} (f : α → Except PyError β) : List α → Except PyError (List β)
  | [] => Except.ok []
  | x :: xs => do
    let y ← f x
    let ys ← mapExcept f xs
    Except.ok (y :: ys)

/-- Python `==` between a runtime value and a string constant. A
`ParamType` member (being a `str` subclass) equals its `_value_` string;
dicts, numbers, lists, tuples and `None` never equal a string. -/
def pyEqStr (v : PyVal) (s : String) : Bool :=
  match v with
  | .str t => t = s
  | _ => false

/-- Python `==` between the dynamically-typed `type` field of a `Param`
and a `ParamType` member: a member equals itself, a plain string equals
the member's `_value_` (str-mixin enum equality), and every other value
(in particular the dict produced by serialization) is unequal. -/
def pyEqParamType (v : PyTypeField) (t : ParamType) : Bool :=
  match v with
  | .member u => u = t
  | .other (.str s) => s = t.value
  | .other _ => false

/-- The `Param` class of `export.py`. Field order follows the assignment
order in `__init__` (`name`, `type`, `default`, `unit`, then `values`).
The Python `self.values` attribute is only set when `values` is truthy;
an unset attribute is modelled by the empty list (no claim exercises
reading the attribute when it is unset). -/
structure Param where
  name : String
  type : PyTypeField
  default : PyVal
  unit : PyVal
  values : List String
deriving Inhabited

/-- Python `Param.expand_values`: a non-ENUM parameter maps to the single slot
`{name: value}`; an ENUM parameter maps each allowed value `enum` to the
indicator slot `"<name>_<enum>"` holding `1` when `value == enum` and `0`
otherwise. -/
def Param.expand_values (p : Param) (value : PyVal) : List (String × PyVal) :=
  if ¬ pyEqParamType p.type .ENUM then
    [(p.name, value)]
  else
    p.values.map (fun enum =>
      (p.name ++ "_" ++ enum, PyVal.num (if pyEqStr value enum then 1 else 0)))

/-- Python `Param.expand_names`: the expanded-namespace slot names of a
parameter, `[name]` for non-ENUM and `["<name>_<v>"]` per allowed value
for ENUM, in `values` order. -/
def Param.expand_names (p : Param) : List String :=
  if ¬ pyEqParamType p.type .ENUM then
    [p.name]
  else
    p.values.map (fun enum => p.name ++ "_" ++ enum)

/-- The dict comprehension of `unexpand_param_names`:
`{name: param.name for param in all_params.values() for name in param.expand_names()}`,
kept in iteration order. -/
def expandedToParams (all_params : List (String × Param)) : List (String × String) :=
  all_params.flatMap (fun kv => kv.2.expand_names.map (fun n => (n, kv.2.name)))

/-- Python `unexpand_param_names`: map every expanded symbol name back to its
owning parameter through the inverted `expand_names` table and
deduplicate (`list(set(...))`). Indexing the table with a name no
parameter produces raises `KeyError` at the first such name. -/
def unexpand_param_names (all_params : List (String × Param))
    (expanded_param_names : List String) : Except PyError (List String) := do
  let mapped ← mapExcept (fun n =>
      match dictGet (expandedToParams all_params) n with
      | some p => Except.ok p
      | Option.none => Except.error (PyError.keyError n)) expanded_param_names
  Except.ok mapped.dedup

/-- Rational addition in a kernel-computable normal form;
`qAdd_eq_add` proves it is ordinary addition on `ℚ`. -/
def qAdd (a b : ℚ) : ℚ :=
  mkRat (a.num * b.den + b.num * a.den) (a.den * b.den)

/-- Rational multiplication in a kernel-computable normal form;
`qMul_eq_mul` proves it is ordinary multiplication on `ℚ`. -/
def qMul (a b : ℚ) : ℚ :=
  mkRat (a.num * b.num) (a.den * b.den)

/-- Rational division in a kernel-computable normal form;
`qDiv_eq_div` proves it is ordinary division on `ℚ`. -/
def qDiv (a b : ℚ) : ℚ :=
  Rat.divInt (a.num * b.den) (a.den * b.num)

theorem qAdd_eq_add (a b : ℚ) : qAdd a b = a + b := by
  rw [qAdd, Rat.mkRat_eq_div]
  push_cast
  have h : ((b.num : ℚ) * (a.den : ℚ)) = (a.den : ℚ) * (b.num : ℚ) := mul_comm _ _
  rw [h, ← div_add_div _ _ (by positivity) (by positivity), Rat.num_div_den, Rat.num_div_den]

theorem qMul_eq_mul (a b : ℚ) : qMul a b = a * b := by
  rw [qMul, Rat.mkRat_eq_div]
  push_cast
  rw [← div_mul_div_comm, Rat.num_div_den, Rat.num_div_den]

theorem qDiv_eq_div (a b : ℚ) : qDiv a b = a / b := by
  rw [qDiv, Rat.divInt_eq_div]
  push_cast
  rw [div_eq_mul_inv a b, Rat.inv_def', Rat.divInt_eq_div]
  push_cast
  rw [← div_mul_div_comm, Rat.num_div_den]

/-- Modelled from the spec: the external symbolic engine's expression
trees (sympy `Expr`), restricted to the operations the exported formulas
use (numeric literals, symbols, sums and products). -/
inductive SymExpr where
  | const (q : ℚ)
  | sym (name : String)
  | add (a b : SymExpr)
  | mul (a b : SymExpr)
deriving DecidableEq, Inhabited

/-- Modelled from the spec: the raw free-symbol occurrences of an
expression, before the engine's set semantics deduplicates them. -/
def SymExpr.freeSymsRaw : SymExpr → List String
  | .const _ => []
  | .sym n => [n]
  | .add a b => a.freeSymsRaw ++ b.freeSymsRaw
  | .mul a b => a.freeSymsRaw ++ b.freeSymsRaw

/-- Modelled from the spec: `list(str(symbol) for symbol in expr.free_symbols)`
— the engine's free-symbol set of an expression, as a duplicate-free
list. -/
def free_symbols (e : SymExpr) : List String :=
  e.freeSymsRaw.dedup

/-- Modelled from the spec: evaluation of an expression tree under a
numeric environment; an unbound symbol yields no value. -/
def SymExpr.evalEnv : SymExpr → (String → Option ℚ) → Option ℚ
  | .const q, _ => some q
  | .sym n, env => env n
  | .add a b, env => do
    let x ← a.evalEnv env
    let y ← b.evalEnv env
    some (qAdd x y)
  | .mul a b, env => do
    let x ← a.evalEnv env
    let y ← b.evalEnv env
    some (qMul x y)

/-- Modelled from the spec: the callable produced by `_lambdify(expr, args)`
— it remembers the argument names it was compiled with together with the
expression it computes. -/
structure Lambdified where
  args : List String
  expr : SymExpr
deriving Inhabited

/-- Python arithmetic coercion of an environment value: only numbers can
flow into a compiled formula. -/
def pyValNum : PyVal → Option ℚ
  | .num q => some q
  | _ => Option.none

/-- Modelled from the spec: invoking a lambdified callable with a
keyword namespace. Each declared argument is fetched from the namespace
(`KeyError` when missing, extra entries ignored) and the expression is
evaluated over the fetched numbers (`TypeError` when a non-numeric value
is used). -/
def Lambdified.call (f : Lambdified) (env : List (String × PyVal)) : Except PyError ℚ := do
  let _ ← mapExcept (fun a =>
      match dictGet env a with
      | some v => Except.ok v
      | Option.none => Except.error (PyError.keyError a)) f.args
  match f.expr.evalEnv (fun n => (dictGet env n).bind pyValNum) with
  | some q => Except.ok q
  | Option.none => Except.error (PyError.typeError "unsupported operand type")

/-- The input accepted by the `Lambda` constructor: a raw Python number
(coerced with `Float(...)` before compilation), a symbolic expression, or
a dict of named sub-expressions. -/
inductive ExprInput where
  | raw (q : ℚ)
  | expr (e : SymExpr)
  | grouped (es : List (String × SymExpr))
deriving Inhabited

/-- The compiled body held by a `Lambda`: one callable, or a dict of
callables in the grouped case. -/
inductive LambdaBody where
  | scalar (f : Lambdified)
  | grouped (fs : List (String × Lambdified))
deriving Inhabited

/-- The source expression stored on a `Lambda` (`self.expr`). A raw
number arrives here already coerced to a constant expression. -/
inductive StoredExpr where
  | scalar (e : SymExpr)
  | grouped (es : List (String × SymExpr))
deriving Inhabited

/-- The `Lambda` class: compiled callable(s), the minimal owning
parameter names, and the source expression. -/
structure Lambda where
  lambd : LambdaBody
  params : List String
  expr : StoredExpr
deriving Inhabited

/-- The expanded symbol list a `Lambda` construction works over: the
expression's free symbols in the scalar cases, and the union of all
sub-expressions' free symbols (`list(set(...))`, modelled as `dedup` of
the concatenation) in the grouped case. -/
def inputExpandedSyms : ExprInput → List String
  | .raw q => free_symbols (SymExpr.const q)
  | .expr e => free_symbols e
  | .grouped es => (es.flatMap (fun kv => free_symbols kv.2)).dedup

/-- Python `Lambda.__init__`: gather the expanded (free) symbols, reverse-map
them to the owning parameter set with `unexpand_param_names`, and
lambdify — each sub-expression against the shared symbol union in the
grouped case, the single expression against its own free symbols
otherwise. A non-`Expr` input is first coerced with `Float(...)`. -/
def Lambda.init (input : ExprInput) (all_params : List (String × Param)) :
    Except PyError Lambda := do
  match input with
  | .grouped es =>
    let all_expanded := inputExpandedSyms (.grouped es)
    let params ← unexpand_param_names all_params all_expanded
    Except.ok
      { lambd := .grouped (es.map (fun kv => (kv.1, ⟨all_expanded, kv.2⟩)))
        params := params
        expr := .grouped es }
  | .raw q =>
    let e := SymExpr.const q
    let expanded := free_symbols e
    let params ← unexpand_param_names all_params expanded
    Except.ok { lambd := .scalar ⟨expanded, e⟩, params := params, expr := .scalar e }
  | .expr e =>
    let expanded := free_symbols e
    let params ← unexpand_param_names all_params expanded
    Except.ok { lambd := .scalar ⟨expanded, e⟩, params := params, expr := .scalar e }

/-- The seeding comprehension of `Lambda.evaluate`:
`{key: all_params[key].default for key in self.params}`. -/
def seedDefault (all_params : List (String × Param)) (k : String) :
    Except PyError (String × PyVal) :=
  match dictGet all_params k with
  | some p => Except.ok (k, p.default)
  | Option.none => Except.error (PyError.keyError k)

/-- Steps 1–2 of `Lambda.evaluate`: seed `values` with each referenced
parameter's default from the registry (`KeyError` when a referenced
parameter is missing), then overwrite with the override entries whose key
is one of `self.params`. -/
def Lambda.paramValues (lam : Lambda) (all_params : List (String × Param))
    (param_values : List (String × PyVal)) : Except PyError (List (String × PyVal)) := do
  let seeds ← mapExcept (seedDefault all_params) lam.params
  Except.ok (updateAssoc seeds (param_values.filter (fun kv => lam.params.contains kv.1)))

/-- Step 3 of `Lambda.evaluate`: expand every retained value through its
parameter's `expand_values` and merge the results into one flat
namespace. -/
def expandAll (all_params : List (String × Param))
    (values : List (String × PyVal)) : Except PyError (List (String × PyVal)) :=
  values.foldlM (fun acc kv =>
    match dictGet all_params kv.1 with
    | some p => Except.ok (updateAssoc acc (p.expand_values kv.2))
    | Option.none => Except.error (PyError.keyError kv.1)) []

/-- The value of an evaluation: a single number, or a dict of numbers
for a grouped expression. -/
inductive EvalResult where
  | num (q : ℚ)
  | grouped (rs : List (String × ℚ))
deriving DecidableEq, Inhabited

/-- Python `Lambda.evaluate`: defaults overridden by the relevant
`param_values`, expanded to the flat namespace, and fed to the compiled
callable(s). -/
def Lambda.evaluate (lam : Lambda) (all_params : List (String × Param))
    (param_values : List (String × PyVal)) : Except PyError EvalResult := do
  let values ← lam.paramValues all_params param_values
  let expanded ← expandAll all_params values
  match lam.lambd with
  | .scalar f => do
    let q ← f.call expanded
    Except.ok (.num q)
  | .grouped fs => do
    let rs ← mapExcept (fun kv => do
        let q ← kv.2.call expanded
        Except.ok (kv.1, q)) fs
    Except.ok (.grouped rs)

/-- Modelled from the spec: the engine's string rendering of a rational
constant, in an unambiguous bracketed `num/den` form. -/
def renderRat (q : ℚ) : String :=
  "[" ++ toString q.num ++ "/" ++ toString q.den ++ "]"

/-- Modelled from the spec: the engine's string rendering (`str(expr)`)
of an expression tree, fully parenthesized so that parsing inverts it. -/
def renderExpr : SymExpr → String
  | .const q => renderRat q
  | .sym s => s
  | .add a b => "(" ++ renderExpr a ++ "+" ++ renderExpr b ++ ")"
  | .mul a b => "(" ++ renderExpr a ++ "*" ++ renderExpr b ++ ")"

/-- Characters allowed in a rendered symbol name. -/
def isSymChar (c : Char) : Bool :=
  c.isAlphanum || c = '_'

/-- Digit characters to the natural number they denote. -/
def digitsToNat (cs : List Char) : Nat :=
  cs.foldl (fun n c => n * 10 + (c.toNat - 48)) 0

/-- Parse an optionally signed integer prefix. -/
def parseInt (cs : List Char) : Option (Int × List Char) :=
  match cs with
  | '-' :: rest =>
    let ds := rest.takeWhile Char.isDigit
    if ds.isEmpty then Option.none
    else some (-(digitsToNat ds : Int), rest.drop ds.length)
  | _ =>
    let ds := cs.takeWhile Char.isDigit
    if ds.isEmpty then Option.none
    else some ((digitsToNat ds : Int), cs.drop ds.length)

/-- Modelled from the spec: the recursive descent underlying the
engine's `parse_expr`, consuming the grammar produced by `renderExpr`. -/
def parseE : Nat → List Char → Option (SymExpr × List Char)
  | 0, _ => Option.none
  | fuel + 1, cs =>
    match cs with
    | '(' :: rest => do
      let (a, r1) ← parseE fuel rest
      match r1 with
      | '+' :: r2 => do
        let (b, r3) ← parseE fuel r2
        match r3 with
        | ')' :: r4 => some (SymExpr.add a b, r4)
        | _ => Option.none
      | '*' :: r2 => do
        let (b, r3) ← parseE fuel r2
        match r3 with
        | ')' :: r4 => some (SymExpr.mul a b, r4)
        | _ => Option.none
      | _ => Option.none
    | '[' :: rest => do
      let (n, r1) ← parseInt rest
      match r1 with
      | '/' :: r2 =>
        let ds := r2.takeWhile Char.isDigit
        if ds.isEmpty then Option.none
        else
          match r2.drop ds.length with
          | ']' :: r3 => some (SymExpr.const ((n : ℚ) / (digitsToNat ds : ℚ)), r3)
          | _ => Option.none
      | _ => Option.none
    | _ =>
      let ss := cs.takeWhile isSymChar
      if ss.isEmpty then Option.none
      else some (SymExpr.sym (String.mk ss), cs.drop ss.length)

/-- Modelled from the spec: the engine's `parse_expr`, turning a rendered
expression string back into an expression tree; anything unparsable
raises. -/
def parse_expr (s : String) : Except PyError SymExpr :=
  match parseE (s.length + 1) s.toList with
  | some (e, []) => Except.ok e
  | _ => Except.error (PyError.exception "SyntaxError")

/-- The `FunctionalUnit` class: a quantity expression and a unit (which
may be `None`). -/
structure FunctionalUnit where
  quantity : Lambda
  unit : PyVal
deriving Inhabited

/-- The `Impact` class. Its `__init__` executes `self.name = name,` — the
trailing comma makes the stored name a one-element tuple. -/
structure Impact where
  name : PyVal
  unit : PyVal
deriving Inhabited

/-- Python `Impact.__init__(name, unit)`: stores `(name,)` and `unit`. -/
def Impact.init (name unit : PyVal) : Impact :=
  { name := PyVal.tuple1 name, unit := unit }

/-- The `Model` aggregate: parameter registry, expressions keyed by axis
then impact, functional units, and impact descriptors; field order
follows the assignment order in `__init__`. -/
structure Model where
  params : List (String × Param)
  expressions : List (String × List (String × Lambda))
  functional_units : List (String × FunctionalUnit)
  impacts : List (String × Impact)
deriving Inhabited

/-- Python `repr` of a list of strings, as `"%s" % list(keys)` renders it
in the error messages of `Model.evaluate`. -/
def pyReprStrList (l : List String) : String :=
  "[" ++ String.intercalate ", " (l.map (fun s => "\x27" ++ s ++ "\x27")) ++ "]"

/-- The unit arithmetic of `Model.evaluate`: `unit = impact_obj.unit`,
then `unit += "/" + functional_unit.unit` when the functional unit's
unit is not `None` (string concatenation raises `TypeError` on
non-string operands). -/
def composeUnit (impactUnit fuUnit : PyVal) : Except PyError PyVal :=
  match fuUnit with
  | PyVal.none => Except.ok impactUnit
  | PyVal.str s =>
    match impactUnit with
    | PyVal.str iu => Except.ok (PyVal.str (iu ++ "/" ++ s))
    | _ => Except.error (PyError.typeError "unsupported operand type")
  | _ => Except.error (PyError.typeError "can only concatenate str")

/-- The final division of `Model.evaluate`: a grouped impact value is
divided entrywise by the scalar functional-unit value; a grouped
functional-unit value cannot be a divisor. -/
def divideByFu (impacts : EvalResult) (fu_val : EvalResult) : Except PyError EvalResult :=
  match fu_val with
  | .num fq =>
    match impacts with
    | .num q => Except.ok (.num (qDiv q fq))
    | .grouped rs => Except.ok (.grouped (rs.map (fun kv => (kv.1, qDiv kv.2 fq))))
  | .grouped _ => Except.error (PyError.typeError "unsupported operand type")

/-- Python `Model.evaluate`: reject an unknown axis (the message lists the
impact-table keys) and an unknown impact with bare `Exception`s; index
`self.impacts` and `self.functional_units` (each raising `KeyError` on a
missing key); evaluate the functional unit and the impact expression;
compose the unit; divide. -/
def Model.evaluate (m : Model) (impact functional_unit : String) (axis : String)
    (param_values : List (String × PyVal)) : Except PyError (EvalResult × PyVal) := do
  match dictGet m.expressions axis with
  | Option.none =>
    Except.error (PyError.exception
      ("Wrong axis \x27" ++ axis ++ "\x27. Expected one of "
        ++ pyReprStrList (m.impacts.map Prod.fst)))
  | some expressions_by_impact =>
    match dictGet expressions_by_impact impact with
    | Option.none =>
      Except.error (PyError.exception
        ("Wrong impact \x27" ++ impact ++ "\x27. Expected one of "
          ++ pyReprStrList (expressions_by_impact.map Prod.fst)))
    | some lambd => do
      let impact_obj ←
        match dictGet m.impacts impact with
        | some io => Except.ok io
        | Option.none => Except.error (PyError.keyError impact)
      let fu ←
        match dictGet m.functional_units functional_unit with
        | some f => Except.ok f
        | Option.none => Except.error (PyError.keyError functional_unit)
      let fu_val ← fu.quantity.evaluate m.params param_values
      let impacts ← lambd.evaluate m.params param_values
      let unit ← composeUnit impact_obj.unit fu.unit
      let vals ← divideByFu impacts fu_val
      Except.ok (vals, unit)

mutual

/-- The `serialize_model` recursion on a plain runtime value: dicts are
dumped entry by entry; strings, numbers, `None`, lists and tuples have
neither `__json__` nor `__dict__` and pass through unchanged. -/
def serializePyVal : PyVal → PyVal
  | .dict entries => .dict (serializeEntries entries)
  | v => v

/-- Entry-by-entry dump of a dict's values for `serializePyVal`. -/
def serializeEntries : List (String × PyVal) → List (String × PyVal)
  | [] => []
  | (k, v) :: rest => (k, serializePyVal v) :: serializeEntries rest

end

/-- The `serialize_model` recursion on a `Param.type` field: a
`ParamType` member has a `__dict__` holding its `_name_` and `_value_`,
so it dumps to that dict (any further version-dependent entries of the
member `__dict__` are omitted; nothing downstream reads them); any other
value is dumped as a plain value. -/
def serializeTypeField : PyTypeField → PyVal
  | .member t => .dict [("_name_", .str t.memberName), ("_value_", .str t.value)]
  | .other v => serializePyVal v

/-- Python `serialize_model` on a `Param`: `__json__` returns `self.__dict__`,
whose entries (in assignment order) are dumped recursively; the `values`
attribute exists only when it was truthy at construction. -/
def serializeParam (p : Param) : PyVal :=
  .dict ([("name", .str p.name),
          ("type", serializeTypeField p.type),
          ("default", serializePyVal p.default),
          ("unit", serializePyVal p.unit)]
    ++ (if p.values.isEmpty then [] else [("values", .list (p.values.map .str))]))

/-- Python `Lambda.__json__`: the parameter list and the string rendering of
the expression (or of each sub-expression). -/
def Lambda.json (lam : Lambda) : PyVal :=
  .dict [("params", .list (lam.params.map .str)),
         ("expr",
           match lam.expr with
           | .scalar e => .str (renderExpr e)
           | .grouped es => .dict (es.map (fun kv => (kv.1, .str (renderExpr kv.2)))))]

/-- Python `serialize_model` on a `FunctionalUnit` (dumped through its
`__dict__`). -/
def serializeFunctionalUnit (fu : FunctionalUnit) : PyVal :=
  .dict [("quantity", fu.quantity.json), ("unit", serializePyVal fu.unit)]

/-- Python `serialize_model` on an `Impact` (dumped through its `__dict__`; the
stored name tuple passes through unchanged). -/
def serializeImpact (i : Impact) : PyVal :=
  .dict [("name", serializePyVal i.name), ("unit", serializePyVal i.unit)]

/-- Python `serialize_model` on a `Model`: `__json__` returns `self.__dict__`,
each table dumped key by key. -/
def serialize_model (m : Model) : PyVal :=
  .dict [("params", .dict (m.params.map (fun kv => (kv.1, serializeParam kv.2)))),
         ("expressions", .dict (m.expressions.map (fun kv =>
            (kv.1, PyVal.dict (kv.2.map (fun kv2 => (kv2.1, kv2.2.json))))))),
         ("functional_units", .dict (m.functional_units.map (fun kv =>
            (kv.1, serializeFunctionalUnit kv.2)))),
         ("impacts", .dict (m.impacts.map (fun kv => (kv.1, serializeImpact kv.2))))]

/-- Coerce a serialized `values` list back to the strings it holds;
anything non-string is rejected as the later `"%s_%s"` formatting and
comparisons would misbehave on it. -/
def asStrList (items : List PyVal) : Except PyError (List String) :=
  mapExcept (fun v =>
    match v with
    | PyVal.str s => Except.ok s
    | _ => Except.error (PyError.typeError "expected a string")) items

/-- Python `Param.from_json`: `cls(**js)` — the dict entries become the
constructor arguments, so the rebuilt `type` field is whatever value was
serialized (for a round-tripped model, the member dump, not a
`ParamType` member). A falsy `values` leaves the attribute unset. -/
def Param.from_json (js : PyVal) : Except PyError Param :=
  match js with
  | .dict entries =>
    match dictGet entries "name", dictGet entries "type",
          dictGet entries "default", dictGet entries "unit" with
    | some (.str n), some t, some d, some u =>
      match dictGet entries "values" with
      | Option.none => Except.ok ⟨n, .other t, d, u, []⟩
      | some (.list items) => do
        let vs ← asStrList items
        Except.ok ⟨n, .other t, d, u, vs⟩
      | some _ => Except.error (PyError.typeError "values must be a list")
    | _, _, _, _ => Except.error (PyError.typeError "missing Param argument")
  | _ => Except.error (PyError.typeError "Param.from_json expects a dict")

/-- Python `Lambda.from_json`: take `js["expr"]`, re-parse the string (or each
string of the dict) with the engine, and re-run the full constructor
(stored `params` are ignored and re-derived). -/
def Lambda.from_json (js : PyVal) (all_params : List (String × Param)) :
    Except PyError Lambda :=
  match js with
  | .dict entries =>
    match dictGet entries "expr" with
    | Option.none => Except.error (PyError.keyError "expr")
    | some (.str s) => do
      let e ← parse_expr s
      Lambda.init (.expr e) all_params
    | some (.dict es) => do
      let parsed ← mapExcept (fun kv =>
          match kv.2 with
          | PyVal.str s => do
            let e ← parse_expr s
            Except.ok (kv.1, e)
          | _ => Except.error (PyError.typeError "parse_expr expects a string")) es
      Lambda.init (.grouped parsed) all_params
    | some _ => Except.error (PyError.typeError "parse_expr expects a string")
  | _ => Except.error (PyError.typeError "Lambda.from_json expects a dict")

/-- Index a serialized mapping, raising `KeyError` like Python's `js[key]`,
and requiring a dict-of-entries shape. -/
def jsIndex (js : PyVal) (key : String) : Except PyError (List (String × PyVal)) :=
  match js with
  | .dict entries =>
    match dictGet entries key with
    | some (.dict sub) => Except.ok sub
    | some _ => Except.error (PyError.typeError "expected a dict")
    | Option.none => Except.error (PyError.keyError key)
  | _ => Except.error (PyError.typeError "expected a dict")

/-- Python `Model.from_json`: rebuild the parameter registry first, then the
expression table per axis per impact, then the functional units, then
the impacts (whose `Impact(...)` constructor re-wraps the serialized
name in a fresh tuple). -/
def Model.from_json (js : PyVal) : Except PyError Model := do
  let paramEntries ← jsIndex js "params"
  let all_params ← mapExcept (fun kv => do
      let p ← Param.from_json kv.2
      Except.ok (kv.1, p)) paramEntries
  let exprEntries ← jsIndex js "expressions"
  let expressions ← mapExcept (fun kv =>
      match kv.2 with
      | PyVal.dict impacts => do
        let lams ← mapExcept (fun kv2 => do
            let lam ← Lambda.from_json kv2.2 all_params
            Except.ok (kv2.1, lam)) impacts
        Except.ok (kv.1, lams)
      | _ => Except.error (PyError.typeError "expected a dict")) exprEntries
  let fuEntries ← jsIndex js "functional_units"
  let functional_units ← mapExcept (fun kv =>
      match kv.2 with
      | PyVal.dict fu => do
        let qjs ←
          match dictGet fu "quantity" with
          | some q => Except.ok q
          | Option.none => Except.error (PyError.keyError "quantity")
        let unit ←
          match dictGet fu "unit" with
          | some u => Except.ok u
          | Option.none => Except.error (PyError.keyError "unit")
        let quantity ← Lambda.from_json qjs all_params
        Except.ok (kv.1, FunctionalUnit.mk quantity unit)
      | _ => Except.error (PyError.typeError "expected a dict")) fuEntries
  let impactEntries ← jsIndex js "impacts"
  let impacts ← mapExcept (fun kv =>
      match kv.2 with
      | PyVal.dict i => do
        let n ←
          match dictGet i "name" with
          | some n => Except.ok n
          | Option.none => Except.error (PyError.keyError "name")
        let u ←
          match dictGet i "unit" with
          | some u => Except.ok u
          | Option.none => Except.error (PyError.keyError "unit")
        Except.ok (kv.1, Impact.init n u)
      | _ => Except.error (PyError.typeError "expected a dict")) impactEntries
  Except.ok (Model.mk all_params expressions functional_units impacts)

/-! Helper lemmas about the dict and comprehension models. -/

theorem dictGet_nil {α : Type} (key : String) : dictGet ([] : List (String × α)) key = Option.none := rfl

theorem dictGet_cons {α : Type} (k0 : String) (v0 : α) (l : List (String × α)) (key : String) :
    dictGet ((k0, v0) :: l) key
      = match dictGet l key with
        | some v => some v
        | Option.none => if k0 = key then some v0 else Option.none := rfl

theorem dictGet_eq_none_of_not_mem_keys {α : Type} {l : List (String × α)} {key : String}
    (h : key ∉ l.map Prod.fst) : dictGet l key = Option.none := by
  induction l with
  | nil => rfl
  | cons kv rest ih =>
    simp only [List.map_cons, List.mem_cons] at h
    push_neg at h
    obtain ⟨h1, h2⟩ := h
    cases kv with
    | mk k0 v0 =>
      rw [dictGet_cons, ih h2]
      simp only at h1
      simp [Ne.symm h1]

theorem dictHas_eq_false_iff {α : Type} (l : List (String × α)) (key : String) :
    dictHas l key = false ↔ dictGet l key = Option.none := by
  unfold dictHas
  cases dictGet l key <;> simp

theorem updateAssoc_nil {α : Type} (base : List (String × α)) :
    updateAssoc base [] = base := by
  unfold updateAssoc
  simp [dictGet_nil]

theorem mapExcept_ok_forall {α β : Type} {f : α → Except PyError β} :
    ∀ {l : List α} {ys : List β}, mapExcept f l = Except.ok ys →
      ∀ x ∈ l, ∃ y, f x = Except.ok y := by
  intro l
  induction l with
  | nil => intro ys _ x hx; cases hx
  | cons a rest ih =>
    intro ys h x hx
    unfold mapExcept at h
    cases hfa : f a with
    | error e => rw [hfa] at h; cases h
    | ok y =>
      rw [hfa] at h
      cases hrest : mapExcept f rest with
      | error e => rw [hrest] at h; cases h
      | ok ys2 =>
        rcases List.mem_cons.mp hx with hx | hx
        · subst hx; exact ⟨y, hfa⟩
        · exact ih hrest x hx

theorem mapExcept_ok_mem {α β : Type} {f : α → Except PyError β} :
    ∀ {l : List α} {ys : List β}, mapExcept f l = Except.ok ys →
      ∀ y, y ∈ ys ↔ ∃ x ∈ l, f x = Except.ok y := by
  intro l
  induction l with
  | nil =>
    intro ys h y
    unfold mapExcept at h
    cases h
    simp
  | cons a rest ih =>
    intro ys h y
    unfold mapExcept at h
    cases hfa : f a with
    | error e => rw [hfa] at h; cases h
    | ok y0 =>
      rw [hfa] at h
      cases hrest : mapExcept f rest with
      | error e => rw [hrest] at h; cases h
      | ok ys2 =>
        rw [hrest] at h
        cases h
        constructor
        · intro hy
          rcases List.mem_cons.mp hy with hy | hy
          · exact ⟨a, List.mem_cons_self a rest, by rw [hfa, hy]⟩
          · rcases (ih hrest y).mp hy with ⟨x, hx, hfx⟩
            exact ⟨x, List.mem_cons_of_mem a hx, hfx⟩
        · rintro ⟨x, hx, hfx⟩
          rcases List.mem_cons.mp hx with hx | hx
          · subst hx
            rw [hfa] at hfx
            cases hfx
            exact List.mem_cons_self y ys2
          · exact List.mem_cons_of_mem y0 ((ih hrest y).mpr ⟨x, hx, hfx⟩)

theorem dictGet_cons_pair {β : Type} (y0 : String × β) (l : List (String × β)) (key : String) :
    dictGet (y0 :: l) key
      = match dictGet l key with
        | some v => some v
        | Option.none => if y0.1 = key then some y0.2 else Option.none := rfl

theorem mapExcept_ok_keys {β : Type}
    {f : String → Except PyError (String × β)}
    (hf : ∀ k y, f k = Except.ok y → y.1 = k) :
    ∀ {l : List String} {ys : List (String × β)}, mapExcept f l = Except.ok ys →
      ys.map Prod.fst = l := by
  intro l
  induction l with
  | nil =>
    intro ys h
    unfold mapExcept at h
    cases h
    rfl
  | cons a rest ih =>
    intro ys h
    unfold mapExcept at h
    cases hfa : f a with
    | error e => rw [hfa] at h; cases h
    | ok y0 =>
      rw [hfa] at h
      cases hrest : mapExcept f rest with
      | error e => rw [hrest] at h; cases h
      | ok ys2 =>
        rw [hrest] at h
        cases h
        simp [hf a y0 hfa, ih hrest]

theorem seedDefaults_lookup (all_params : List (String × Param)) :
    ∀ {params : List String} {seeds : List (String × PyVal)},
      mapExcept (seedDefault all_params) params = Except.ok seeds →
      ∀ k ∈ params, ∃ p, dictGet all_params k = some p ∧ dictGet seeds k = some p.default := by
  intro params
  induction params with
  | nil => intro seeds _ k hk; cases hk
  | cons a rest ih =>
    intro seeds h k hk
    unfold mapExcept at h
    cases hfa : seedDefault all_params a with
    | error e => rw [hfa] at h; cases h
    | ok y0 =>
      rw [hfa] at h
      cases hrest : mapExcept (seedDefault all_params) rest with
      | error e => rw [hrest] at h; cases h
      | ok ys2 =>
        rw [hrest] at h
        cases h
        have hy0 : ∃ p0, dictGet all_params a = some p0 ∧ y0 = (a, p0.default) := by
          unfold seedDefault at hfa
          cases hga : dictGet all_params a with
          | some p0 =>
            rw [hga] at hfa
            cases hfa
            exact ⟨p0, rfl, rfl⟩
          | none => rw [hga] at hfa; cases hfa
        obtain ⟨p0, hga, hy0⟩ := hy0
        by_cases hkr : k ∈ rest
        · obtain ⟨p, hp, hs⟩ := ih hrest k hkr
          refine ⟨p, hp, ?_⟩
          rw [dictGet_cons_pair, hs]
        · rcases List.mem_cons.mp hk with hka | hka
          · subst hka
            refine ⟨p0, hga, ?_⟩
            have hkeys : ys2.map Prod.fst = rest :=
              mapExcept_ok_keys
                (fun k2 y2 h2 => by
                  unfold seedDefault at h2
                  cases hg2 : dictGet all_params k2 with
                  | some p2 => rw [hg2] at h2; cases h2; rfl
                  | none => rw [hg2] at h2; cases h2) hrest
            have hnone : dictGet ys2 k = Option.none := by
              apply dictGet_eq_none_of_not_mem_keys
              rw [hkeys]
              exact hkr
            subst hy0
            rw [dictGet_cons, hnone]
            simp
          · exact absurd hka hkr

/-! Concrete fixtures used by witnesses and counterexamples. -/

/-- An ENUM parameter `p` with values `A`, `B` and default `"A"`. -/
def enumParam : Param := ⟨"p", .member .ENUM, .str "A", PyVal.none, ["A", "B"]⟩

/-- A registry holding only `enumParam`. -/
def enumRegistry : List (String × Param) := [("p", enumParam)]

/-- The compiled form of the expression `p_A` over `enumRegistry`. -/
def symLambda : Lambda := ⟨.scalar ⟨["p_A"], .sym "p_A"⟩, ["p"], .scalar (.sym "p_A")⟩

/-- The compiled form of the constant expression `1.0`. -/
def oneLambda : Lambda := ⟨.scalar ⟨[], .const 1⟩, [], .scalar (.const 1)⟩

/-- A model holding the ENUM parameter `p`, the expression `p_A` for
impact `imp1` on axis `total`, a constant functional unit `fu1` with a
`None` unit, and impact descriptor `imp1` with unit `kg`. -/
def enumModel : Model :=
  ⟨enumRegistry,
   [("total", [("imp1", symLambda)])],
   [("fu1", ⟨oneLambda, PyVal.none⟩)],
   [("imp1", Impact.init (.str "climate change") (.str "kg"))]⟩

theorem symLambda_is_init :
    Lambda.init (.expr (.sym "p_A")) enumRegistry = Except.ok symLambda := rfl

theorem oneLambda_is_init :
    Lambda.init (.raw 1) enumRegistry = Except.ok oneLambda := rfl

/-- A FLOAT parameter `x` with default `2.0`. -/
def xParam : Param := ⟨"x", .member .FLOAT, .num 2, PyVal.none, []⟩

/-- A registry holding FLOAT parameters `x` (default 2), `y` (default 5)
and `z` (default 7). -/
def xyzRegistry : List (String × Param) :=
  [("x", xParam),
   ("y", ⟨"y", .member .FLOAT, .num 5, PyVal.none, []⟩),
   ("z", ⟨"z", .member .FLOAT, .num 7, PyVal.none, []⟩)]

/-- The expression `x*3`. -/
def xTimes3 : SymExpr := .mul (.sym "x") (.const 3)

/-- The compiled form of `x*3` over `xyzRegistry`. -/
def xLambda : Lambda := ⟨.scalar ⟨["x"], xTimes3⟩, ["x"], .scalar xTimes3⟩

theorem xLambda_is_init :
    Lambda.init (.expr xTimes3) xyzRegistry = Except.ok xLambda := rfl

/-- A model like `enumModel` but whose functional unit declares the unit
`m2` and quantity `x` with `x` defaulting to 2, so that evaluation
exercises both the unit concatenation and the division. -/
def m2Model : Model :=
  ⟨xyzRegistry,
   [("total", [("imp1", xLambda)])],
   [("fu2", ⟨⟨.scalar ⟨["x"], .sym "x"⟩, ["x"], .scalar (.sym "x")⟩, .str "m2"⟩)],
   [("imp1", Impact.init (.str "climate change") (.str "kg"))]⟩

/-- Claim C1. Serialization round trip: claimed — for every Model `m`,
`Model.from_json (serialize_model m)` yields a Model evaluating
identically to `m`. The code breaks this for any model with an ENUM
parameter referenced by an expression: `serialize_model` dumps the
`ParamType` member through its `__dict__`, `Param.from_json` therefore
rebuilds `type` as a plain dict that no longer compares equal to
`ParamType.ENUM`, the rebuilt parameter expands to `["p"]` instead of its
indicator slots, and `Lambda.from_json` raises `KeyError` on the first
enum indicator symbol. Concretely, `enumModel` evaluates fine, while
deserializing its serialized form raises `KeyError("p_A")` instead of
returning a Model. -/
theorem c1_roundtrip_enum_breaks :
    enumModel.evaluate "imp1" "fu1" "total" [] = Except.ok (EvalResult.num 1, PyVal.str "kg")
      ∧ Model.from_json (serialize_model enumModel) = Except.error (PyError.keyError "p_A") :=
  ⟨rfl, rfl⟩

/-- Claim C10. `Impact.__init__` executes `self.name = name,` whose trailing
comma stores the one-element tuple `(name,)`, while `unit` is stored
unchanged; consequently `serialize_model` emits the `name` field of every
impact entry as that one-element tuple (tuples pass through the dump
unchanged), and the whole-model dump places exactly these entries under
`"impacts"`. -/
theorem c10_impact_name_tuple (n u : PyVal) (m : Model) :
    (Impact.init n u).name = PyVal.tuple1 n
      ∧ (Impact.init n u).unit = u
      ∧ serializeImpact (Impact.init n u)
          = PyVal.dict [("name", PyVal.tuple1 n), ("unit", serializePyVal u)]
      ∧ (∃ rest, serialize_model m = PyVal.dict rest
          ∧ dictGet rest "impacts"
              = some (PyVal.dict (m.impacts.map (fun kv => (kv.1, serializeImpact kv.2))))) := by
  refine ⟨rfl, rfl, rfl, ?_⟩
  refine ⟨_, rfl, ?_⟩
  rfl

/-- A flat-namespace entry holding the number 1 (an enum indicator that
is set). -/
def isOneIndicator (v : PyVal) : Bool :=
  match v with
  | .num q => q = 1
  | _ => false

/-- Claim C2. Enum expansion exclusivity: for an ENUM parameter with distinct
allowed values `vs` and a current value `v ∈ vs`, `expand_values`
returns exactly one entry `"<name>_<vj>"` per allowed value in order,
with the entry of `v` equal to 1 and all others 0; in particular the
number of entries is the number of allowed values and exactly one
indicator is 1. -/
theorem c2_enum_expansion_exclusive (name : String) (vs : List String) (v : String)
    (d u : PyVal) (hnd : vs.Nodup) (hv : v ∈ vs) :
    (Param.mk name (.member .ENUM) d u vs).expand_values (.str v)
        = vs.map (fun e => (name ++ "_" ++ e, PyVal.num (if e = v then 1 else 0)))
      ∧ ((Param.mk name (.member .ENUM) d u vs).expand_values (.str v)).length = vs.length
      ∧ ((Param.mk name (.member .ENUM) d u vs).expand_values (.str v)).countP
          (fun kv => isOneIndicator kv.2) = 1 := by
  have hmap : (Param.mk name (.member .ENUM) d u vs).expand_values (.str v)
      = vs.map (fun e => (name ++ "_" ++ e, PyVal.num (if e = v then 1 else 0))) := by
    unfold Param.expand_values
    simp only [pyEqParamType, decide_True, not_true_eq_false, if_false]
    apply List.map_congr_left
    intro e _
    by_cases h : e = v
    · subst h
      simp [pyEqStr]
    · simp [pyEqStr, h, Ne.symm h]
  refine ⟨hmap, ?_, ?_⟩
  · rw [hmap, List.length_map]
  · rw [hmap, List.countP_map]
    have hpred : ((fun kv => isOneIndicator kv.2) ∘
        (fun e => (name ++ "_" ++ e, PyVal.num (if e = v then 1 else 0))))
        = fun e => e == v := by
      funext e
      by_cases h : e = v
      · subst h
        simp [isOneIndicator]
      · simp [isOneIndicator, h]
    rw [hpred]
    exact List.count_eq_one_of_mem hnd hv

/-- Claim C2 witness: the ENUM parameter `p` with values `["A","B","C"]` at
value `"B"` expands to `p_A ↦ 0, p_B ↦ 1, p_C ↦ 0`: three entries,
exactly one of them 1. -/
theorem c2_enum_expansion_exclusive_witness :
    (Param.mk "p" (.member .ENUM) (PyVal.str "A") PyVal.none ["A", "B", "C"]).expand_values
        (.str "B")
        = [("p_A", PyVal.num 0), ("p_B", PyVal.num 1), ("p_C", PyVal.num 0)]
      ∧ ((Param.mk "p" (.member .ENUM) (PyVal.str "A") PyVal.none
          ["A", "B", "C"]).expand_values (.str "B")).length = 3
      ∧ ((Param.mk "p" (.member .ENUM) (PyVal.str "A") PyVal.none
          ["A", "B", "C"]).expand_values (.str "B")).countP
            (fun kv => isOneIndicator kv.2) = 1 := by
  have h := c2_enum_expansion_exclusive "p" ["A", "B", "C"] "B" (PyVal.str "A") PyVal.none
    (by decide) (by decide)
  exact ⟨by rw [h.1]; rfl, h.2.1, h.2.2⟩

/-- Claim C6 counterexample: the claim says that expanding an out-of-range
enum value fails with `ConfigurationError`; the code instead returns the
all-zero indicator dict without raising — here the parameter `p` with
values `A`, `B` expanded at the value `"C"`. -/
theorem c6_out_of_range_counterexample :
    enumParam.expand_values (.str "C") = [("p_A", PyVal.num 0), ("p_B", PyVal.num 0)] := rfl

/-- Claim C6 amended: expanding an ENUM parameter at a value not among its
allowed values does not fail; it returns the all-zero indicator mapping
(one `"<name>_<v>" ↦ 0` entry per allowed value, in order). -/
theorem c6_out_of_range_amended (name : String) (vs : List String) (v : String)
    (d u : PyVal) (hv : v ∉ vs) :
    (Param.mk name (.member .ENUM) d u vs).expand_values (.str v)
      = vs.map (fun e => (name ++ "_" ++ e, PyVal.num 0)) := by
  unfold Param.expand_values
  simp only [pyEqParamType, decide_True, not_true_eq_false, if_false]
  apply List.map_congr_left
  intro e he
  have h : ¬ v = e := by
    intro hve
    exact hv (hve ▸ he)
  simp [pyEqStr, h]

/-- Claim C6 amended witness: the parameter `p` (values `A`, `B`) at value
`"C"` yields the all-zero expansion. -/
theorem c6_out_of_range_amended_witness :
    (Param.mk "p" (.member .ENUM) (PyVal.str "A") PyVal.none ["A", "B"]).expand_values
      (.str "C") = [("p_A", PyVal.num 0), ("p_B", PyVal.num 0)] := by
  have h := c6_out_of_range_amended "p" ["A", "B"] "C" (PyVal.str "A") PyVal.none (by decide)
  rw [h]
  rfl

/-- Claim C7 counterexample: looking up an expanded name with no owner
(`"qq"` against the registry of `p`) raises `KeyError` — which is not a
`ConfigurationError`; the repository defines no such exception. -/
theorem c7_unknown_symbol_counterexample :
    unexpand_param_names enumRegistry ["qq"] = Except.error (PyError.keyError "qq")
      ∧ PyError.isConfigurationError (PyError.keyError "qq") = false :=
  ⟨rfl, rfl⟩

/-- Claim C7 amended: the reverse mapping is never silent about an unknown
expanded name, but the failure is a `KeyError` (Python's dict lookup
error), not a `ConfigurationError`: if some given name has no owner the
call raises `KeyError` at the first such name, and whenever the call
succeeds every given name has an owner. -/
theorem c7_unknown_symbol_amended (all_params : List (String × Param)) (names : List String) :
    (∀ n, names.find? (fun n2 => (dictGet (expandedToParams all_params) n2).isNone) = some n →
        unexpand_param_names all_params names = Except.error (PyError.keyError n))
      ∧ (∀ res, unexpand_param_names all_params names = Except.ok res →
        ∀ n ∈ names, ∃ p, dictGet (expandedToParams all_params) n = some p) := by
  constructor
  · intro n
    induction names with
    | nil => intro h; cases h
    | cons a rest ih =>
      intro h
      rw [List.find?_cons] at h
      cases hga : dictGet (expandedToParams all_params) a with
      | none =>
        rw [hga] at h
        simp at h
        subst h
        unfold unexpand_param_names mapExcept
        rw [hga]
        rfl
      | some p =>
        rw [hga] at h
        simp at h
        have hrest := ih h
        have hmap : mapExcept (fun n2 =>
            match dictGet (expandedToParams all_params) n2 with
            | some p2 => Except.ok p2
            | Option.none => Except.error (PyError.keyError n2)) rest
            = Except.error (PyError.keyError n) := by
          unfold unexpand_param_names at hrest
          cases hm : mapExcept (fun n2 =>
              match dictGet (expandedToParams all_params) n2 with
              | some p2 => Except.ok p2
              | Option.none => Except.error (PyError.keyError n2)) rest with
          | error e =>
            rw [hm] at hrest
            cases hrest
            rfl
          | ok ys =>
            rw [hm] at hrest
            cases hrest
        unfold unexpand_param_names mapExcept
        rw [hga, hmap]
        rfl
  · intro res hok n hn
    unfold unexpand_param_names at hok
    cases hm : mapExcept (fun n2 =>
        match dictGet (expandedToParams all_params) n2 with
        | some p2 => Except.ok p2
        | Option.none => Except.error (PyError.keyError n2)) names with
    | error e =>
      rw [hm] at hok
      cases hok
    | ok ys =>
      obtain ⟨y, hy⟩ := mapExcept_ok_forall hm n hn
      cases hg : dictGet (expandedToParams all_params) n with
      | some p => exact ⟨p, rfl⟩
      | none =>
        rw [hg] at hy
        cases hy

/-- Claim C7 amended witness: against the registry of `p`, the names
`["p_A", "qq"]` fail with `KeyError("qq")` (the first unowned name), and
the successful call on `["p_A"]` had an owner for every name. -/
theorem c7_unknown_symbol_amended_witness :
    unexpand_param_names enumRegistry ["p_A", "qq"] = Except.error (PyError.keyError "qq")
      ∧ ∃ p, dictGet (expandedToParams enumRegistry) "p_A" = some p := by
  constructor
  · exact (c7_unknown_symbol_amended enumRegistry ["p_A", "qq"]).1 "qq" (by rfl)
  · exact (c7_unknown_symbol_amended enumRegistry ["p_A"]).2 ["p"] rfl "p_A"
      (List.mem_cons_self "p_A" [])

theorem unexpand_ok_spec (all_params : List (String × Param)) (syms : List String)
    (ps : List String) (h : unexpand_param_names all_params syms = Except.ok ps) :
    ps.Nodup ∧ ∀ s, s ∈ ps ↔ ∃ n ∈ syms, dictGet (expandedToParams all_params) n = some s := by
  unfold unexpand_param_names at h
  cases hm : mapExcept (fun n =>
      match dictGet (expandedToParams all_params) n with
      | some p => Except.ok p
      | Option.none => Except.error (PyError.keyError n)) syms with
  | error e =>
    rw [hm] at h
    cases h
  | ok mapped =>
    rw [hm] at h
    cases h
    refine ⟨List.nodup_dedup mapped, ?_⟩
    intro s
    rw [List.mem_dedup]
    rw [mapExcept_ok_mem hm s]
    constructor
    · rintro ⟨n, hn, hfn⟩
      refine ⟨n, hn, ?_⟩
      cases hg : dictGet (expandedToParams all_params) n with
      | some p =>
        rw [hg] at hfn
        cases hfn
        rfl
      | none =>
        rw [hg] at hfn
        cases hfn
    · rintro ⟨n, hn, hg⟩
      exact ⟨n, hn, by rw [hg]⟩

/-- Claim C3. Minimal parameter set: whenever the `Lambda` constructor
succeeds, the stored `params` is duplicate-free and a name belongs to it
exactly when some free expanded symbol of the input is owned by that
parameter — never anything more, regardless of what else the registry
contains. -/
theorem c3_minimal_params (input : ExprInput) (all_params : List (String × Param))
    (lam : Lambda) (h : Lambda.init input all_params = Except.ok lam) :
    lam.params.Nodup
      ∧ ∀ s, s ∈ lam.params ↔
          ∃ n ∈ inputExpandedSyms input, dictGet (expandedToParams all_params) n = some s := by
  cases input with
  | raw q =>
    simp only [Lambda.init] at h
    cases hu : unexpand_param_names all_params (free_symbols (SymExpr.const q)) with
    | error e =>
      rw [hu] at h
      cases h
    | ok ps =>
      rw [hu] at h
      cases h
      exact unexpand_ok_spec all_params _ ps hu
  | expr e =>
    simp only [Lambda.init] at h
    cases hu : unexpand_param_names all_params (free_symbols e) with
    | error e2 =>
      rw [hu] at h
      cases h
    | ok ps =>
      rw [hu] at h
      cases h
      exact unexpand_ok_spec all_params _ ps hu
  | grouped es =>
    simp only [Lambda.init] at h
    cases hu : unexpand_param_names all_params (inputExpandedSyms (.grouped es)) with
    | error e2 =>
      rw [hu] at h
      cases h
    | ok ps =>
      rw [hu] at h
      cases h
      exact unexpand_ok_spec all_params _ ps hu

/-- The compiled form of the bare expression `x` over `xyzRegistry`. -/
def xOnlyLambda : Lambda := ⟨.scalar ⟨["x"], .sym "x"⟩, ["x"], .scalar (.sym "x")⟩

/-- Claim C3 witness: compiling the expression `x` against the registry
containing `x`, `y` and `z` stores `params = ["x"]`; `x` is a member
because it owns the free symbol `x`, and `y` is not a member. -/
theorem c3_minimal_params_witness :
    Lambda.init (.expr (.sym "x")) xyzRegistry = Except.ok xOnlyLambda
      ∧ xOnlyLambda.params = ["x"]
      ∧ xOnlyLambda.params.Nodup
      ∧ ("x" ∈ xOnlyLambda.params ↔
          ∃ n ∈ inputExpandedSyms (.expr (.sym "x")),
            dictGet (expandedToParams xyzRegistry) n = some "x")
      ∧ ("y" ∈ xOnlyLambda.params ↔
          ∃ n ∈ inputExpandedSyms (.expr (.sym "x")),
            dictGet (expandedToParams xyzRegistry) n = some "y") := by
  have h := c3_minimal_params (.expr (.sym "x")) xyzRegistry xOnlyLambda rfl
  exact ⟨rfl, rfl, h.1, h.2 "x", h.2 "y"⟩

/-- Claim C4. Default fallback: when `Lambda.evaluate` is called with an empty
override mapping, the value table it builds (and feeds to expansion)
binds every referenced parameter to that parameter's registry default. -/
theorem c4_default_fallback (lam : Lambda) (ap : List (String × Param))
    (vals : List (String × PyVal)) (h : lam.paramValues ap [] = Except.ok vals) :
    ∀ k ∈ lam.params, ∃ p, dictGet ap k = some p ∧ dictGet vals k = some p.default := by
  unfold Lambda.paramValues at h
  cases hm : mapExcept (seedDefault ap) lam.params with
  | error e =>
    rw [hm] at h
    cases h
  | ok seeds =>
    rw [hm] at h
    simp only [List.filter_nil, updateAssoc_nil] at h
    cases h
    exact seedDefaults_lookup ap hm

/-- Claim C4 witness: the parameter `x` has default 2 in `xyzRegistry`; the
compiled `x*3` evaluated with no overrides builds the value table
`{x: 2}` from that default, and the full evaluation returns `6.0`. -/
theorem c4_default_fallback_witness :
    (∃ p, dictGet xyzRegistry "x" = some p
        ∧ dictGet [("x", PyVal.num 2)] "x" = some p.default)
      ∧ xLambda.paramValues xyzRegistry [] = Except.ok [("x", PyVal.num 2)]
      ∧ xLambda.evaluate xyzRegistry [] = Except.ok (EvalResult.num 6) := by
  refine ⟨?_, rfl, rfl⟩
  exact c4_default_fallback xLambda xyzRegistry [("x", PyVal.num 2)] rfl "x"
    (List.mem_cons_self "x" [])

/-- Claim C9. Irrelevant overrides are ignored: prepending an override entry
whose key is not among the expression's `params` leaves the result of
`Lambda.evaluate` unchanged. -/
theorem c9_irrelevant_overrides (lam : Lambda) (ap : List (String × Param))
    (pv : List (String × PyVal)) (k : String) (v : PyVal)
    (h : lam.params.contains k = false) :
    lam.evaluate ap ((k, v) :: pv) = lam.evaluate ap pv := by
  have hcond : ¬ ((fun kv : String × PyVal => lam.params.contains kv.1) (k, v) = true) := by
    simp only []
    rw [h]
    simp
  have hf : ((k, v) :: pv).filter (fun kv => lam.params.contains kv.1)
      = pv.filter (fun kv => lam.params.contains kv.1) := by
    rw [List.filter_cons, if_neg hcond]
  unfold Lambda.evaluate Lambda.paramValues
  rw [hf]

/-- Claim C9 witness: the compiled `x*3` does not reference `y`, so evaluating
with the override `{y: 100}` equals evaluating with no overrides, both
returning `6.0`. -/
theorem c9_irrelevant_overrides_witness :
    xLambda.params.contains "y" = false
      ∧ xLambda.evaluate xyzRegistry [("y", PyVal.num 100)] = xLambda.evaluate xyzRegistry []
      ∧ xLambda.evaluate xyzRegistry [] = Except.ok (EvalResult.num 6) :=
  ⟨rfl, c9_irrelevant_overrides xLambda xyzRegistry [] "y" (PyVal.num 100) rfl, rfl⟩

/-- Claim C8. Unit composition: whenever `Model.evaluate` succeeds, the
returned unit is the impact's unit unchanged when the functional unit's
unit is `None`, and the impact's unit concatenated with `"/"` and the
functional unit's unit when the latter is a (non-null) string. -/
theorem c8_unit_composition (m : Model) (impact fu axis : String)
    (pv : List (String × PyVal)) (v : EvalResult) (u : PyVal)
    (h : m.evaluate impact fu axis pv = Except.ok (v, u)) :
    ∃ io fuo, dictGet m.impacts impact = some io
      ∧ dictGet m.functional_units fu = some fuo
      ∧ ((fuo.unit = PyVal.none ∧ u = io.unit)
        ∨ (∃ s iu, fuo.unit = PyVal.str s ∧ io.unit = PyVal.str iu
            ∧ u = PyVal.str (iu ++ "/" ++ s))) := by
  unfold Model.evaluate at h
  cases hax : dictGet m.expressions axis with
  | none =>
    simp only [hax] at h
    cases h
  | some ebi =>
    simp only [hax] at h
    cases himp : dictGet ebi impact with
    | none =>
      simp only [himp] at h
      cases h
    | some lambd =>
      simp only [himp] at h
      cases hio : dictGet m.impacts impact with
      | none =>
        simp only [hio] at h
        cases h
      | some io =>
        simp only [hio] at h
        simp only [bind, Except.bind] at h
        cases hfu : dictGet m.functional_units fu with
        | none =>
          simp only [hfu] at h
          cases h
        | some fuo =>
          simp only [hfu] at h
          cases hfv : fuo.quantity.evaluate m.params pv with
          | error e =>
            simp only [hfv] at h
            cases h
          | ok fv =>
            simp only [hfv] at h
            cases hiv : lambd.evaluate m.params pv with
            | error e =>
              simp only [hiv] at h
              cases h
            | ok iv =>
              simp only [hiv] at h
              cases hcu : composeUnit io.unit fuo.unit with
              | error e =>
                simp only [hcu] at h
                cases h
              | ok cu =>
                simp only [hcu] at h
                cases hdv : divideByFu iv fv with
                | error e =>
                  simp only [hdv] at h
                  cases h
                | ok dv =>
                  simp only [hdv] at h
                  cases h
                  refine ⟨io, fuo, rfl, rfl, ?_⟩
                  unfold composeUnit at hcu
                  cases hfuu : fuo.unit with
                  | none =>
                    rw [hfuu] at hcu
                    cases hcu
                    exact Or.inl ⟨rfl, rfl⟩
                  | str s =>
                    rw [hfuu] at hcu
                    cases hiou : io.unit with
                    | str iu =>
                      rw [hiou] at hcu
                      cases hcu
                      exact Or.inr ⟨s, iu, rfl, rfl, rfl⟩
                    | none => rw [hiou] at hcu; cases hcu
                    | num q => rw [hiou] at hcu; cases hcu
                    | tuple1 w => rw [hiou] at hcu; cases hcu
                    | list items => rw [hiou] at hcu; cases hcu
                    | dict entries => rw [hiou] at hcu; cases hcu
                  | num q => rw [hfuu] at hcu; cases hcu
                  | tuple1 w => rw [hfuu] at hcu; cases hcu
                  | list items => rw [hfuu] at hcu; cases hcu
                  | dict entries => rw [hfuu] at hcu; cases hcu

/-- Claim C8 witness: evaluating `m2Model` (impact unit `kg`, functional-unit
unit `m2`) succeeds with unit `kg/m2`, and `enumModel` (functional-unit
unit `None`) succeeds with the impact unit `kg` unchanged; both facts
instantiate the composition characterization. -/
theorem c8_unit_composition_witness :
    (∃ io fuo, dictGet m2Model.impacts "imp1" = some io
      ∧ dictGet m2Model.functional_units "fu2" = some fuo
      ∧ ((fuo.unit = PyVal.none ∧ PyVal.str "kg/m2" = io.unit)
        ∨ (∃ s iu, fuo.unit = PyVal.str s ∧ io.unit = PyVal.str iu
            ∧ PyVal.str "kg/m2" = PyVal.str (iu ++ "/" ++ s))))
      ∧ (∃ io fuo, dictGet enumModel.impacts "imp1" = some io
        ∧ dictGet enumModel.functional_units "fu1" = some fuo
        ∧ ((fuo.unit = PyVal.none ∧ PyVal.str "kg" = io.unit)
          ∨ (∃ s iu, fuo.unit = PyVal.str s ∧ io.unit = PyVal.str iu
              ∧ PyVal.str "kg" = PyVal.str (iu ++ "/" ++ s)))) :=
  ⟨c8_unit_composition m2Model "imp1" "fu2" "total" [] (EvalResult.num 3) (PyVal.str "kg/m2") rfl,
   c8_unit_composition enumModel "imp1" "fu1" "total" [] (EvalResult.num 1) (PyVal.str "kg") rfl⟩

/-- Claim C5 counterexample: an unknown axis makes `Model.evaluate` raise a
bare `Exception` (whose message lists the impact keys), not a
`LookupError` as claimed. -/
theorem c5_lookup_counterexample :
    enumModel.evaluate "imp1" "fu1" "bogus" []
        = Except.error (PyError.exception
            "Wrong axis \x27bogus\x27. Expected one of [\x27imp1\x27]")
      ∧ PyError.isLookupError (PyError.exception
            "Wrong axis \x27bogus\x27. Expected one of [\x27imp1\x27]") = false :=
  ⟨rfl, rfl⟩

/-- Claim C5 amended: an unknown axis raises a bare `Exception` (not a
`LookupError`) whose message enumerates the impact-table keys; an
unknown impact raises a bare `Exception` whose message enumerates that
axis's impact keys; an unknown functional-unit name raises `KeyError`
(which is a `LookupError`) naming only the missing key. -/
theorem c5_lookup_amended (m : Model) (impact fu axis : String)
    (pv : List (String × PyVal)) :
    (dictGet m.expressions axis = Option.none →
        m.evaluate impact fu axis pv = Except.error (PyError.exception
            ("Wrong axis \x27" ++ axis ++ "\x27. Expected one of "
              ++ pyReprStrList (m.impacts.map Prod.fst)))
          ∧ PyError.isLookupError (PyError.exception
              ("Wrong axis \x27" ++ axis ++ "\x27. Expected one of "
                ++ pyReprStrList (m.impacts.map Prod.fst))) = false)
      ∧ (∀ ebi, dictGet m.expressions axis = some ebi → dictGet ebi impact = Option.none →
          m.evaluate impact fu axis pv = Except.error (PyError.exception
            ("Wrong impact \x27" ++ impact ++ "\x27. Expected one of "
              ++ pyReprStrList (ebi.map Prod.fst))))
      ∧ (∀ ebi lambd io, dictGet m.expressions axis = some ebi →
          dictGet ebi impact = some lambd → dictGet m.impacts impact = some io →
          dictGet m.functional_units fu = Option.none →
          m.evaluate impact fu axis pv = Except.error (PyError.keyError fu)
            ∧ PyError.isLookupError (PyError.keyError fu) = true) := by
  refine ⟨?_, ?_, ?_⟩
  · intro hax
    unfold Model.evaluate
    simp only [hax]
    exact ⟨trivial, rfl⟩
  · intro ebi hax himp
    unfold Model.evaluate
    simp only [hax, himp]
  · intro ebi lambd io hax himp hio hfu
    unfold Model.evaluate
    simp only [hax, himp, hio, hfu, bind, Except.bind]
    exact ⟨trivial, rfl⟩

/-- Claim C5 amended witness: on `enumModel`, axis `bogus` raises the
`Exception` enumerating `['imp1']`; impact `zzz` on axis `total` raises
the `Exception` enumerating `['imp1']`; functional unit `nofu` raises
`KeyError('nofu')`, a `LookupError`. -/
theorem c5_lookup_amended_witness :
    (enumModel.evaluate "imp1" "fu1" "bogus" []
        = Except.error (PyError.exception
            "Wrong axis \x27bogus\x27. Expected one of [\x27imp1\x27]")
      ∧ PyError.isLookupError (PyError.exception
          "Wrong axis \x27bogus\x27. Expected one of [\x27imp1\x27]") = false)
      ∧ enumModel.evaluate "zzz" "fu1" "total" []
          = Except.error (PyError.exception
              "Wrong impact \x27zzz\x27. Expected one of [\x27imp1\x27]")
      ∧ enumModel.evaluate "imp1" "nofu" "total" []
          = Except.error (PyError.keyError "nofu")
      ∧ PyError.isLookupError (PyError.keyError "nofu") = true := by
  refine ⟨?_, ?_, ?_, ?_⟩
  · exact (c5_lookup_amended enumModel "imp1" "fu1" "bogus" []).1 rfl
  · exact (c5_lookup_amended enumModel "zzz" "fu1" "total" []).2.1
      [("imp1", symLambda)] rfl rfl
  · exact ((c5_lookup_amended enumModel "imp1" "nofu" "total" []).2.2
      [("imp1", symLambda)] symLambda (Impact.init (.str "climate change") (.str "kg"))
      rfl rfl rfl rfl).1
  · rfl
